import Mathlib

/-!
Verification development for the go_check_links crawler (src/main.go).

The crawler core is embedded shallowly: pure Lean functions mirror the Go
functions (markVisited, shouldCrawl, extractLinks, crawlURL, the main-loop
classification), concurrency is abstracted to a sequential worklist whose
pending list plays the role of the WaitGroup counter, and the external
collaborators from the Go standard library (net/url parsing and RFC 3986
reference resolution, strings helpers) are modelled from the spec's
description of their behaviour.
-/

/-- ASCII lower-casing of one character (model of Go case folding, which on
ASCII maps A-Z to a-z and leaves everything else unchanged). -/
def asciiLowerChar (c : Char) : Char :=
  if 'A' ≤ c ∧ c ≤ 'Z' then Char.ofNat (c.toNat + 32) else c

/-- ASCII lower-casing of a string (model of Go strings.ToLower on the
ASCII inputs relevant here: schemes, hosts, content types). -/
def asciiLower (s : String) : String := String.mk (s.data.map asciiLowerChar)

/-- Model of Go strings.EqualFold restricted to ASCII simple folding:
equality after lower-casing both sides. -/
def eqFold (a b : String) : Bool := asciiLower a == asciiLower b

/-- Model of Go unicode.IsSpace on the ASCII range (space, tab, newline,
vertical tab, form feed, carriage return). -/
def goIsSpace (c : Char) : Bool :=
  c == ' ' || c == '\t' || c == '\n' || c == '\x0b' || c == '\x0c' || c == '\r'

/-- Model of Go strings.TrimSpace: drop whitespace from both ends. -/
def goTrimSpace (s : String) : String :=
  String.mk (((s.data.dropWhile goIsSpace).reverse.dropWhile goIsSpace).reverse)

/-- Substring test on character lists: does s contain sub as a contiguous
run?  Model of Go strings.Contains. -/
def listHasSub : List Char → List Char → Bool
  | s, sub =>
    if sub.isPrefixOf s then true
    else
      match s with
      | [] => false
      | _ :: t => listHasSub t sub

/-- Model of Go strings.Contains on strings. -/
def goContains (s sub : String) : Bool := listHasSub s.data sub.data

/-- The parts of Go's net/url URL structure used by the crawler.
opq models the Opaque field. -/
structure URL where
  scheme : String
  opq : String
  host : String
  path : String
  query : String
  fragment : String
  deriving DecidableEq, Repr

/-- An ASCII control character (model of Go net/url's control-byte check,
which rejects URLs containing them). -/
def isCtlChar (c : Char) : Bool := c.toNat < 32 || c.toNat == 127

/-- Scheme scanner of net/url (modelled from the spec's external-collaborator
description): returns none on a malformed leading colon, otherwise the
lower-cased-later scheme and the remainder; absence of a scheme yields
the empty scheme and the whole input. -/
def getSchemeAux (orig : List Char) : Nat → List Char → Option (String × List Char)
  | _, [] => some ("", orig)
  | i, c :: rest =>
    if c.isAlpha then getSchemeAux orig (i + 1) rest
    else if c.isDigit || c == '+' || c == '-' || c == '.' then
      if i == 0 then some ("", orig) else getSchemeAux orig (i + 1) rest
    else if c == ':' then
      if i == 0 then none else some (String.mk (orig.take i), rest)
    else some ("", orig)

/-- Entry point of the scheme scanner. -/
def getScheme (s : List Char) : Option (String × List Char) := getSchemeAux s 0 s

/-- Cut a character list at the first occurrence of c: returns the part
before and, when c occurs, the part after (model of Go strings.Cut). -/
def cutList : List Char → Char → List Char × Option (List Char)
  | [], _ => ([], none)
  | x :: t, c =>
    if x == c then ([], some t)
    else
      let r := cutList t c
      (x :: r.1, r.2)

/-- Host part of an authority: everything after the last at-sign
(model of net/url's userinfo split). -/
def afterLastAt (cs : List Char) : List Char :=
  (cs.reverse.takeWhile (· != '@')).reverse

/-- Modelled from the spec: the URL-reference parser of the net/url external
collaborator (not under src/), per the spec's contract that attribute values
are parsed as URL references and malformed values fail.  Rejects control
characters, a leading colon with empty scheme, and a colon inside the first
path segment of a scheme-less rootless reference; otherwise splits fragment,
scheme, query, authority and path. -/
def parseURL (raw : String) : Option URL :=
  let s := raw.data
  if s.any (fun c => isCtlChar c) then none
  else
    let cf := cutList s '#'
    let frag := match cf.2 with | none => "" | some f => String.mk f
    match getScheme cf.1 with
    | none => none
    | some (schemeRaw, rest0) =>
      let scheme := asciiLower schemeRaw
      let cq := cutList rest0 '?'
      let rest1 := cq.1
      let query := match cq.2 with | none => "" | some q => String.mk q
      if rest1.take 1 ≠ ['/'] ∧ scheme ≠ "" then
        some ⟨scheme, String.mk rest1, "", "", query, frag⟩
      else if rest1.take 1 ≠ ['/'] ∧ scheme = "" ∧
          (rest1.takeWhile (· != '/')).contains ':' then
        none
      else if rest1.take 2 = ['/', '/'] ∧
          (scheme ≠ "" ∨ rest1.take 3 ≠ ['/', '/', '/']) then
        let auth := (rest1.drop 2).takeWhile (· != '/')
        let pathCs := (rest1.drop 2).dropWhile (· != '/')
        some ⟨scheme, "", String.mk (afterLastAt auth), String.mk pathCs, query, frag⟩
      else
        some ⟨scheme, "", "", String.mk rest1, query, frag⟩

/-- base[:i+1] where i is the index of the last slash of base; empty when
base has no slash (model of the merge step of RFC 3986 section 5.3). -/
def lastSlashTake (base : List Char) : List Char :=
  (base.reverse.dropWhile (· != '/')).reverse

/-- Split a character list on slashes into segments. -/
def splitSlash : List Char → List (List Char)
  | [] => [[]]
  | c :: rest =>
    let r := splitSlash rest
    if c == '/' then [] :: r
    else
      match r with
      | [] => [[c]]
      | h :: t => (c :: h) :: t

/-- Remove-dot-segments of RFC 3986 section 5.2.4 on a segment list, with an
accumulator of already-output segments in reverse order.  A trailing "." or
".." leaves a trailing slash (an empty final segment). -/
def dotSegsAux : List (List Char) → List (List Char) → List (List Char)
  | acc, [] => acc.reverse
  | acc, seg :: rest =>
    if seg = ['.'] then
      if rest = [] then acc.reverse ++ [[]] else dotSegsAux acc rest
    else if seg = ['.', '.'] then
      if rest = [] then acc.tail.reverse ++ [[]] else dotSegsAux acc.tail rest
    else dotSegsAux (seg :: acc) rest

/-- Modelled from the spec: path resolution of the net/url collaborator
(RFC 3986 merge followed by remove-dot-segments); the result of a nonempty
merge always carries a leading slash. -/
def resolvePath (base ref : List Char) : List Char :=
  let full :=
    if ref = [] then base
    else if ref.take 1 ≠ ['/'] then lastSlashTake base ++ ref
    else ref
  if full = [] then []
  else
    let segs :=
      if full.take 1 = ['/'] then splitSlash (full.drop 1) else splitSlash full
    '/' :: List.intercalate ['/'] (dotSegsAux [] segs)

/-- Modelled from the spec: RFC 3986 reference resolution as performed by the
net/url collaborator's ResolveReference — absolute references pass through
(with the scheme defaulted from the base), opaque references keep their
opaque part, and relative references merge against the base, inheriting the
base's query and fragment only when path, query (and fragment) are empty. -/
def resolveReference (base ref : URL) : URL :=
  if ref.scheme ≠ "" ∨ ref.host ≠ "" then
    { scheme := if ref.scheme = "" then base.scheme else ref.scheme,
      opq := ref.opq, host := ref.host,
      path := String.mk (resolvePath ref.path.data []),
      query := ref.query, fragment := ref.fragment }
  else if ref.opq ≠ "" then
    { scheme := base.scheme, opq := ref.opq, host := "", path := "",
      query := ref.query, fragment := ref.fragment }
  else
    { scheme := base.scheme, opq := "", host := base.host,
      path := String.mk (resolvePath base.path.data ref.path.data),
      query := if ref.path = "" ∧ ref.query = "" then base.query else ref.query,
      fragment :=
        if ref.path = "" ∧ ref.query = "" ∧ ref.fragment = "" then base.fragment
        else ref.fragment }

/-- Modelled from the spec: the String method of the net/url collaborator,
restricted to the fields of our URL model; produces the normalized URL
string used as the visited-set key (u.String() in crawlURL). -/
def URL.render (u : URL) : String :=
  String.mk
    ((if u.scheme ≠ "" then u.scheme.data ++ [':'] else [])
      ++ (if u.opq ≠ "" then u.opq.data
          else
            (if u.host ≠ "" then ['/', '/'] ++ u.host.data else [])
              ++ (if u.host ≠ "" ∧ u.path ≠ "" ∧ u.path.data.take 1 ≠ ['/'] then ['/'] else [])
              ++ u.path.data)
      ++ (if u.query ≠ "" then '?' :: u.query.data else [])
      ++ (if u.fragment ≠ "" then '#' :: u.fragment.data else []))

/-- The mutable claim state of the Crawler: the visited map (modelled as the
list of claimed URL strings) and the visitedCount counter
(src/main.go lines 30, 40). -/
structure VisitState where
  visited : List String
  visitedCount : Nat
  deriving DecidableEq, Repr

/-- markVisited of src/main.go lines 106-121, as a pure state transformer:
returns false when the claim limit maxNum is positive and already reached,
false when the URL is already in the visited map, and otherwise records the
URL, bumps the counter and returns true. -/
def markVisited (maxNum : Int) (st : VisitState) (u : String) : Bool × VisitState :=
  if 0 < maxNum ∧ maxNum ≤ (st.visitedCount : Int) then (false, st)
  else if u ∈ st.visited then (false, st)
  else (true, ⟨u :: st.visited, st.visitedCount + 1⟩)

/-- The crawl configuration relevant to the embedded core: the seed URL and
the maxNum claim limit. -/
structure Config where
  startURL : URL
  maxNum : Int

/-- shouldCrawl of src/main.go lines 194-199: in scope iff the host matches
the seed host case-insensitively and the scheme matches exactly. -/
def shouldCrawl (c : Config) (u : URL) : Bool :=
  if !(eqFold u.host c.startURL.host) || u.scheme != c.startURL.scheme then false
  else true

/-- LinkStatus of src/main.go lines 22-26 (CrawlResult of the spec):
URL string, HTTP status (0 when no response), and the fetch error. -/
structure LinkStatus where
  url : String
  status : Int
  err : Option String
  deriving DecidableEq, Repr

/-- The broken-link classification of main (src/main.go line 277):
broken iff the error is present or the status lies in [400, 600). -/
def isBroken (r : LinkStatus) : Bool :=
  r.err.isSome || (decide (400 ≤ r.status) && decide (r.status < 600))

/-- Node types of the golang.org/x/net/html collaborator. -/
inductive GoNodeType where
  | errorNode
  | textNode
  | documentNode
  | elementNode
  | commentNode
  | doctypeNode
  deriving DecidableEq, Repr

/-- One attribute of an HTML element (Key and Val of html.Attribute). -/
structure GoAttribute where
  key : String
  val : String
  deriving DecidableEq, Repr

/-- A parsed HTML node (html.Node of the parser collaborator): node type,
tag or text data, attributes, and children in document order. -/
inductive HtmlNode where
  | node (ntype : GoNodeType) (ndata : String) (attrs : List GoAttribute)
      (children : List HtmlNode)

/-- The attribute key collected for a tag: href for anchors, src for images,
empty otherwise (the switch of src/main.go lines 208-213). -/
def keyAttrFor (d : String) : String :=
  if d = "a" then ("href") else if d = "img" then ("src") else ("")

/-- The links a single node contributes (the attribute loop of
src/main.go lines 215-223): every attribute whose key matches, trimmed,
parsed, and resolved against the base; parse failures are dropped. -/
def nodeOwnLinks (base : URL) (t : GoNodeType) (d : String)
    (attrs : List GoAttribute) : List URL :=
  if t = GoNodeType.elementNode ∧ keyAttrFor d ≠ "" then
    attrs.filterMap fun a =>
      if a.key = keyAttrFor d then
        (parseURL (goTrimSpace a.val)).map (resolveReference base)
      else none
  else []

mutual

/-- The recursive walk f of extractLinks (src/main.go lines 205-229):
a node's own links come first, then the links of its children in order. -/
def extractFrom (base : URL) : HtmlNode → List URL
  | HtmlNode.node t d attrs children =>
    nodeOwnLinks base t d attrs ++ extractFromList base children

/-- The walk over a child list, left to right. -/
def extractFromList (base : URL) : List HtmlNode → List URL
  | [] => []
  | c :: cs => extractFrom base c ++ extractFromList base cs

end

/-- extractLinks of src/main.go lines 202-232. -/
def extractLinks (n : HtmlNode) (base : URL) : List URL := extractFrom base n

mutual

/-- Specification-level collection: the raw href/src attribute values of the
tree in depth-first document order, before any trimming or parsing. -/
def collectRefs : HtmlNode → List String
  | HtmlNode.node t d attrs children =>
    (if t = GoNodeType.elementNode ∧ keyAttrFor d ≠ "" then
      attrs.filterMap fun a => if a.key = keyAttrFor d then some a.val else none
    else [])
      ++ collectRefsList children

/-- Raw attribute values of a child list, left to right. -/
def collectRefsList : List HtmlNode → List String
  | [] => []
  | c :: cs => collectRefs c ++ collectRefsList cs

end

/-- The outcome the environment assigns to fetching one URL string:
request construction fails (src/main.go line 143), the HTTP round trip
fails (line 157, with the status read from a possibly-nil response),
or a response arrives with a status, a Content-Type header and a body that
either parses to an HTML tree or fails to parse (line 176). -/
inductive FetchOutcome where
  | reqError (msg : String)
  | doError (msg : String) (status : Int)
  | success (status : Int) (contentType : String) (body : Option HtmlNode)

/-- crawlURL of src/main.go lines 124-191 as a pure step: given the claim
state and a candidate URL it returns the new claim state, the CrawlResults
sent on the results channel, and the child URLs spawned as new tasks. -/
def crawlURL (c : Config) (env : String → FetchOutcome) (st : VisitState)
    (u : URL) : VisitState × List LinkStatus × List URL :=
  if !shouldCrawl c u then (st, [], [])
  else
    let uStr := u.render
    let mv := markVisited c.maxNum st uStr
    if !mv.1 then (mv.2, [], [])
    else
      match env uStr with
      | FetchOutcome.reqError msg => (mv.2, [⟨uStr, 0, some msg⟩], [])
      | FetchOutcome.doError msg status => (mv.2, [⟨uStr, status, some msg⟩], [])
      | FetchOutcome.success status ct body =>
        let res : LinkStatus := ⟨uStr, status, none⟩
        if !goContains (asciiLower ct) "text/html" then (mv.2, [res], [])
        else
          match body with
          | none => (mv.2, [res], [])
          | some doc => (mv.2, [res], extractLinks doc u)

/-- The links a URL would spawn if it were claimed: the extraction result
when the fetch succeeds with an HTML content type and a parsable body,
nothing otherwise. -/
def linksOf (env : String → FetchOutcome) (u : URL) : List URL :=
  match env u.render with
  | FetchOutcome.success _ ct (some doc) =>
    if !goContains (asciiLower ct) "text/html" then [] else extractLinks doc u
  | _ => []

/-- The result crawlURL emits for a claimed URL, as a function of the fetch
outcome alone. -/
def resultOf (env : String → FetchOutcome) (u : URL) : LinkStatus :=
  match env u.render with
  | FetchOutcome.reqError msg => ⟨u.render, 0, some msg⟩
  | FetchOutcome.doError msg status => ⟨u.render, status, some msg⟩
  | FetchOutcome.success status _ _ => ⟨u.render, status, none⟩

/-- The whole-run state of the sequential model of the dispatcher: the claim
state, the pending tasks (the WaitGroup's outstanding count is its length),
and the results emitted so far in order. -/
structure RunState where
  visit : VisitState
  pending : List URL
  results : List LinkStatus

/-- One scheduling step: run the first pending task; its children join the
pending list and its results join the result log.  An empty pending list is
a fixed point (the WaitGroup has reached zero). -/
def stepRun (c : Config) (env : String → FetchOutcome) (s : RunState) : RunState :=
  match s.pending with
  | [] => s
  | u :: rest =>
    let r := crawlURL c env s.visit u
    ⟨r.1, rest ++ r.2.2, s.results ++ r.2.1⟩

/-- n scheduling steps. -/
def runN (c : Config) (env : String → FetchOutcome) : Nat → RunState → RunState
  | 0, s => s
  | n + 1, s => runN c env n (stepRun c env s)

/-- The state Run (src/main.go lines 87-95) starts from: empty visited map,
zero count, the seed as the only pending task, no results. -/
def initState (seed : URL) : RunState := ⟨⟨[], 0⟩, [seed], []⟩

/-! ### Concrete fixtures used by the example parts of the claims -/

/-- The base URL of the spec's link-extraction round-trip example. -/
def exBase5 : URL := ⟨"https", "", "a.com", "/dir/page.html", "", ""⟩

/-- The document of the round-trip example: an anchor to /foo with a text
child, followed by an image with a relative src. -/
def exDoc5 : HtmlNode :=
  HtmlNode.node GoNodeType.elementNode ("body") []
    [HtmlNode.node GoNodeType.elementNode ("a") [⟨"href", "/foo"⟩]
        [HtmlNode.node GoNodeType.textNode ("x") [] []],
      HtmlNode.node GoNodeType.elementNode ("img") [⟨"src", "bar.png"⟩] []]

/-- The round-trip example with a malformed href (a colon with no scheme,
which net/url rejects) inserted between the two good links. -/
def exDocMal : HtmlNode :=
  HtmlNode.node GoNodeType.elementNode ("body") []
    [HtmlNode.node GoNodeType.elementNode ("a") [⟨"href", "/foo"⟩] [],
      HtmlNode.node GoNodeType.elementNode ("a") [⟨"href", ":bad"⟩] [],
      HtmlNode.node GoNodeType.elementNode ("img") [⟨"src", "bar.png"⟩] []]

/-- Seed of the claim-limit example. -/
def exSeed7 : URL := ⟨"https", "", "s.com", "/", "", ""⟩

/-- Configuration of the claim-limit example: maxPagesToVisit = 2. -/
def exCfg7 : Config := ⟨exSeed7, 2⟩

/-- Seed page of the claim-limit example: five distinct in-scope links. -/
def exDoc7 : HtmlNode :=
  HtmlNode.node GoNodeType.elementNode ("body") []
    [HtmlNode.node GoNodeType.elementNode ("a") [⟨"href", "/p1"⟩] [],
      HtmlNode.node GoNodeType.elementNode ("a") [⟨"href", "/p2"⟩] [],
      HtmlNode.node GoNodeType.elementNode ("a") [⟨"href", "/p3"⟩] [],
      HtmlNode.node GoNodeType.elementNode ("a") [⟨"href", "/p4"⟩] [],
      HtmlNode.node GoNodeType.elementNode ("a") [⟨"href", "/p5"⟩] []]

/-- Environment of the claim-limit example: the seed serves the five-link
page; every other page is HTML that fails to parse (so spawns nothing). -/
def exEnv7 : String → FetchOutcome := fun s =>
  if s = "https://s.com/" then FetchOutcome.success 200 "text/html" (some exDoc7)
  else FetchOutcome.success 200 "text/html" none

/-- Base URL of the empty-href example. -/
def exBase10 : URL := ⟨"https", "", "a.com", "/x", "", ""⟩

/-- A page whose only anchor has a whitespace-only href. -/
def exDocWs : HtmlNode :=
  HtmlNode.node GoNodeType.elementNode ("a") [⟨"href", "   "⟩] []

/-- An environment in which every fetch fails at the transport layer. -/
def exEnvDead : String → FetchOutcome := fun _ => FetchOutcome.doError ("down") 0

/-- Seed of the content-type gate example. -/
def exSeed8 : URL := ⟨"https", "", "b.com", "/", "", ""⟩

/-- Configuration of the content-type gate example (no claim limit). -/
def exCfg8 : Config := ⟨exSeed8, 0⟩

/-- Environment serving a non-HTML content type everywhere. -/
def exEnv8 : String → FetchOutcome :=
  fun _ => FetchOutcome.success 200 "application/json" none

/-- A one-link document for the parse-failure example. -/
def exDoc9 : HtmlNode :=
  HtmlNode.node GoNodeType.elementNode ("a") [⟨"href", "/z"⟩] []

/-- Environment whose HTML bodies fail to parse. -/
def exEnvFail9 : String → FetchOutcome :=
  fun _ => FetchOutcome.success 500 "text/html" none

/-- The same environment except the body parses. -/
def exEnvOk9 : String → FetchOutcome :=
  fun _ => FetchOutcome.success 500 "text/html" (some exDoc9)

/-! ### Helper lemmas about markVisited -/

theorem markVisited_true_iff (m : Int) (st : VisitState) (u : String) :
    (markVisited m st u).1 = true ↔
      u ∉ st.visited ∧ (0 < m → (st.visitedCount : Int) < m) := by
  unfold markVisited
  split_ifs with h1 h2
  · simp only [false_iff, not_and]
    intro _ hlt
    exact absurd (hlt h1.1) (not_lt.mpr h1.2)
  · simp only [false_iff, not_and]
    intro hu
    exact absurd h2 hu
  · simp only [true_iff]
    refine ⟨h2, fun hm => ?_⟩
    by_contra hge
    exact h1 ⟨hm, le_of_not_lt hge⟩

theorem markVisited_false_state (m : Int) (st : VisitState) (u : String)
    (h : (markVisited m st u).1 = false) : (markVisited m st u).2 = st := by
  unfold markVisited at *
  split_ifs at h ⊢
  all_goals simp_all

theorem markVisited_true_state (m : Int) (st : VisitState) (u : String)
    (h : (markVisited m st u).1 = true) :
    (markVisited m st u).2 = ⟨u :: st.visited, st.visitedCount + 1⟩ := by
  unfold markVisited at *
  split_ifs at h ⊢
  all_goals simp_all

/-! ### Helper lemmas about crawlURL -/

theorem crawlURL_eq (c : Config) (env : String → FetchOutcome) (st : VisitState)
    (u : URL) :
    crawlURL c env st u =
      if shouldCrawl c u = false then (st, [], [])
      else if (markVisited c.maxNum st u.render).1 = false then
        ((markVisited c.maxNum st u.render).2, [], [])
      else ((markVisited c.maxNum st u.render).2, [resultOf env u], linksOf env u) := by
  by_cases hs : shouldCrawl c u
  · by_cases hm : (markVisited c.maxNum st u.render).1
    · cases he : env u.render with
      | reqError msg =>
        simp [crawlURL, resultOf, linksOf, hs, hm, he]
      | doError msg status =>
        simp [crawlURL, resultOf, linksOf, hs, hm, he]
      | success status ct body =>
        cases body with
        | none =>
          by_cases hct : goContains (asciiLower ct) "text/html" <;>
            simp [crawlURL, resultOf, linksOf, hs, hm, he, hct]
        | some doc =>
          by_cases hct : goContains (asciiLower ct) "text/html" <;>
            simp [crawlURL, resultOf, linksOf, hs, hm, he, hct]
    · simp only [Bool.not_eq_true] at hm
      simp [crawlURL, hs, hm, markVisited_false_state _ _ _ hm]
  · simp only [Bool.not_eq_true] at hs
    simp [crawlURL, hs]

/-! ### Worklist measure and termination infrastructure -/

/-- Number of universe URLs not yet claimed. -/
def unvisitedIn (Uni : Finset String) (st : VisitState) : Nat :=
  (Uni.filter (fun x => x ∉ st.visited)).card

/-- Termination measure of a run state against a finite URL universe with
per-page link bound L. -/
def measureRun (Uni : Finset String) (L : Nat) (s : RunState) : Nat :=
  unvisitedIn Uni s.visit * (L + 1) + s.pending.length

theorem stepRun_of_pending_nil (c : Config) (env : String → FetchOutcome)
    (s : RunState) (h : s.pending = []) : stepRun c env s = s := by
  unfold stepRun
  rw [h]

theorem runN_of_pending_nil (c : Config) (env : String → FetchOutcome) :
    ∀ (n : Nat) (s : RunState), s.pending = [] → (runN c env n s).pending = []
  | 0, _, h => h
  | n + 1, s, h => by
    rw [runN, stepRun_of_pending_nil c env s h]
    exact runN_of_pending_nil c env n s h

theorem crawlURL_children_cases (c : Config) (env : String → FetchOutcome)
    (st : VisitState) (u : URL) :
    (crawlURL c env st u).2.2 = [] ∨ (crawlURL c env st u).2.2 = linksOf env u := by
  rw [crawlURL_eq]
  split_ifs with h1 h2
  · left; rfl
  · left; rfl
  · right; rfl

theorem crawlURL_visit_cases (c : Config) (env : String → FetchOutcome)
    (st : VisitState) (u : URL) :
    ((crawlURL c env st u).1 = st ∧ (crawlURL c env st u).2.2 = [])
    ∨ (u.render ∉ st.visited ∧
        (crawlURL c env st u).1 = ⟨u.render :: st.visited, st.visitedCount + 1⟩) := by
  rw [crawlURL_eq]
  split_ifs with h1 h2
  · exact Or.inl ⟨rfl, rfl⟩
  · exact Or.inl ⟨markVisited_false_state _ _ _ h2, rfl⟩
  · simp only [Bool.not_eq_false] at h2
    exact Or.inr ⟨((markVisited_true_iff _ _ _).mp h2).1,
      markVisited_true_state _ _ _ h2⟩

theorem unvisitedIn_cons (Uni : Finset String) (st : VisitState) (u : String)
    (hu : u ∈ Uni) (hnv : u ∉ st.visited) :
    (Uni.filter (fun x => x ∉ (u :: st.visited))).card + 1 =
      (Uni.filter (fun x => x ∉ st.visited)).card := by
  have hmem : u ∈ Uni.filter (fun x => x ∉ st.visited) := by
    simp [Finset.mem_filter, hu, hnv]
  have hpos : 0 < (Uni.filter (fun x => x ∉ st.visited)).card :=
    Finset.card_pos.mpr ⟨u, hmem⟩
  have herase : Uni.filter (fun x => x ∉ (u :: st.visited)) =
      (Uni.filter (fun x => x ∉ st.visited)).erase u := by
    ext x
    simp only [Finset.mem_filter, Finset.mem_erase, List.mem_cons, not_or]
    tauto
  rw [herase, Finset.card_erase_of_mem hmem]
  omega

theorem measureRun_step (c : Config) (env : String → FetchOutcome)
    (Uni : Finset String) (L : Nat)
    (hbound : ∀ u : URL, (linksOf env u).length ≤ L)
    (s : RunState) (u : URL) (rest : List URL)
    (hp : s.pending = u :: rest) (hu : u.render ∈ Uni) :
    measureRun Uni L (stepRun c env s) < measureRun Uni L s := by
  have hstep : stepRun c env s =
      ⟨(crawlURL c env s.visit u).1, rest ++ (crawlURL c env s.visit u).2.2,
        s.results ++ (crawlURL c env s.visit u).2.1⟩ := by
    unfold stepRun
    rw [hp]
  have hlen : (crawlURL c env s.visit u).2.2.length ≤ L := by
    rcases crawlURL_children_cases c env s.visit u with h | h
    · rw [h]; exact Nat.zero_le L
    · rw [h]; exact hbound u
  rcases crawlURL_visit_cases c env s.visit u with ⟨hv, hch⟩ | ⟨hnv, hv⟩
  · rw [hstep]
    unfold measureRun unvisitedIn
    simp only [hv, hch, hp, List.append_nil, List.length_cons]
    omega
  · rw [hstep]
    unfold measureRun unvisitedIn
    simp only [hv, hp, List.length_append, List.length_cons]
    have hcons := unvisitedIn_cons Uni s.visit u.render hu hnv
    rw [← hcons, Nat.succ_mul]
    omega

theorem stepRun_pending_in (c : Config) (env : String → FetchOutcome)
    (Uni : Finset String)
    (hclosed : ∀ u : URL, u.render ∈ Uni → ∀ v ∈ linksOf env u, v.render ∈ Uni)
    (s : RunState) (hpend : ∀ u ∈ s.pending, u.render ∈ Uni) :
    ∀ v ∈ (stepRun c env s).pending, v.render ∈ Uni := by
  cases hp : s.pending with
  | nil =>
    rw [stepRun_of_pending_nil c env s hp]
    exact hpend
  | cons u rest =>
    have hstep : (stepRun c env s).pending =
        rest ++ (crawlURL c env s.visit u).2.2 := by
      unfold stepRun
      rw [hp]
    rw [hstep]
    intro v hv
    rcases List.mem_append.mp hv with hr | hc
    · exact hpend v (by rw [hp]; exact List.mem_cons_of_mem u hr)
    · rcases crawlURL_children_cases c env s.visit u with h | h
      · rw [h] at hc; cases hc
      · rw [h] at hc
        exact hclosed u (hpend u (by rw [hp]; exact List.mem_cons_self u rest)) v hc

theorem runN_reaches_nil (c : Config) (env : String → FetchOutcome)
    (Uni : Finset String) (L : Nat)
    (hclosed : ∀ u : URL, u.render ∈ Uni → ∀ v ∈ linksOf env u, v.render ∈ Uni)
    (hbound : ∀ u : URL, (linksOf env u).length ≤ L) :
    ∀ (n : Nat) (s : RunState), (∀ u ∈ s.pending, u.render ∈ Uni) →
      measureRun Uni L s ≤ n → (runN c env n s).pending = [] := by
  intro n
  induction n with
  | zero =>
    intro s _ hm
    have hlen : s.pending.length = 0 := by
      unfold measureRun at hm; omega
    exact List.length_eq_zero.mp hlen
  | succ n ih =>
    intro s hp hm
    cases hpd : s.pending with
    | nil =>
      rw [show runN c env (n + 1) s = runN c env n (stepRun c env s) from rfl,
        stepRun_of_pending_nil c env s hpd]
      exact runN_of_pending_nil c env n s hpd
    | cons u rest =>
      rw [show runN c env (n + 1) s = runN c env n (stepRun c env s) from rfl]
      apply ih
      · exact stepRun_pending_in c env Uni hclosed s hp
      · have hdec := measureRun_step c env Uni L hbound s u rest hpd
          (hp u (by rw [hpd]; exact List.mem_cons_self u rest))
        omega

/-! ### extractLinks agrees with the specification-level description -/

theorem nodeOwnLinks_eq (base : URL) (t : GoNodeType) (d : String)
    (attrs : List GoAttribute) :
    nodeOwnLinks base t d attrs =
      (if t = GoNodeType.elementNode ∧ keyAttrFor d ≠ "" then
        attrs.filterMap fun a => if a.key = keyAttrFor d then some a.val else none
      else []).filterMap
        (fun v => (parseURL (goTrimSpace v)).map (resolveReference base)) := by
  unfold nodeOwnLinks
  split_ifs with h
  · rw [List.filterMap_filterMap]
    congr 1
    funext a
    split_ifs with hk
    · simp
    · simp
  · rfl

mutual

theorem extractFrom_eq_spec (base : URL) :
    ∀ n : HtmlNode, extractFrom base n =
      (collectRefs n).filterMap
        (fun v => (parseURL (goTrimSpace v)).map (resolveReference base))
  | HtmlNode.node t d attrs children => by
    rw [extractFrom, collectRefs, List.filterMap_append,
      extractFromList_eq_spec base children, nodeOwnLinks_eq base t d attrs]

theorem extractFromList_eq_spec (base : URL) :
    ∀ l : List HtmlNode, extractFromList base l =
      (collectRefsList l).filterMap
        (fun v => (parseURL (goTrimSpace v)).map (resolveReference base))
  | [] => rfl
  | c :: cs => by
    rw [extractFromList, collectRefsList, List.filterMap_append,
      extractFrom_eq_spec base c, extractFromList_eq_spec base cs]

end

/-! ### Counting results against the claim limit -/

theorem crawlURL_count (c : Config) (env : String → FetchOutcome)
    (st : VisitState) (u : URL) :
    (crawlURL c env st u).1.visitedCount =
      st.visitedCount + (crawlURL c env st u).2.1.length := by
  rw [crawlURL_eq]
  split_ifs with h1 h2
  · simp
  · simp [markVisited_false_state _ _ _ h2]
  · simp only [Bool.not_eq_false] at h2
    simp [markVisited_true_state _ _ _ h2]

theorem crawlURL_count_le (c : Config) (env : String → FetchOutcome)
    (st : VisitState) (u : URL) (hpos : 0 < c.maxNum)
    (hle : (st.visitedCount : Int) ≤ c.maxNum) :
    ((crawlURL c env st u).1.visitedCount : Int) ≤ c.maxNum := by
  rw [crawlURL_eq]
  split_ifs with h1 h2
  · exact hle
  · rw [markVisited_false_state _ _ _ h2]; exact hle
  · simp only [Bool.not_eq_false] at h2
    rw [markVisited_true_state _ _ _ h2]
    have hlt := ((markVisited_true_iff c.maxNum st u.render).mp h2).2 hpos
    push_cast
    omega

theorem stepRun_count (c : Config) (env : String → FetchOutcome) (s : RunState)
    (h : s.visit.visitedCount = s.results.length) :
    (stepRun c env s).visit.visitedCount = (stepRun c env s).results.length := by
  cases hp : s.pending with
  | nil => rw [stepRun_of_pending_nil c env s hp]; exact h
  | cons u rest =>
    have hstep : stepRun c env s =
        ⟨(crawlURL c env s.visit u).1, rest ++ (crawlURL c env s.visit u).2.2,
          s.results ++ (crawlURL c env s.visit u).2.1⟩ := by
      unfold stepRun
      rw [hp]
    rw [hstep]
    simp only [List.length_append]
    rw [crawlURL_count, h]

theorem stepRun_count_le (c : Config) (env : String → FetchOutcome)
    (hpos : 0 < c.maxNum) (s : RunState)
    (h : (s.visit.visitedCount : Int) ≤ c.maxNum) :
    ((stepRun c env s).visit.visitedCount : Int) ≤ c.maxNum := by
  cases hp : s.pending with
  | nil => rw [stepRun_of_pending_nil c env s hp]; exact h
  | cons u rest =>
    have hstep : stepRun c env s =
        ⟨(crawlURL c env s.visit u).1, rest ++ (crawlURL c env s.visit u).2.2,
          s.results ++ (crawlURL c env s.visit u).2.1⟩ := by
      unfold stepRun
      rw [hp]
    rw [hstep]
    exact crawlURL_count_le c env s.visit u hpos h

theorem runN_results_le (c : Config) (env : String → FetchOutcome)
    (hpos : 0 < c.maxNum) :
    ∀ (n : Nat) (s : RunState),
      s.visit.visitedCount = s.results.length →
      (s.visit.visitedCount : Int) ≤ c.maxNum →
      ((runN c env n s).results.length : Int) ≤ c.maxNum
  | 0, s, h1, h2 => by
    rw [runN, ← h1]
    exact h2
  | n + 1, s, h1, h2 => by
    rw [runN]
    exact runN_results_le c env hpos n (stepRun c env s)
      (stepRun_count c env s h1) (stepRun_count_le c env hpos s h2)

/-! ### Claim theorems -/

/-- C1: markVisited (TryClaim) returns true and records the URL iff it was
never claimed before and, when maxNum is positive, the number of prior
claims is below maxNum; whenever it returns false the registry state is
unchanged; re-claiming after any claim attempt always returns false, so a
URL is claimed at most once across the whole run. -/
theorem markVisited_contract (m : Int) (st : VisitState) (u : String) :
    ((markVisited m st u).1 = true ↔
      u ∉ st.visited ∧ (0 < m → (st.visitedCount : Int) < m))
    ∧ ((markVisited m st u).1 = true → u ∈ (markVisited m st u).2.visited)
    ∧ ((markVisited m st u).1 = false → (markVisited m st u).2 = st)
    ∧ (markVisited m (markVisited m st u).2 u).1 = false := by
  refine ⟨markVisited_true_iff m st u, ?_, markVisited_false_state m st u, ?_⟩
  · intro h
    rw [markVisited_true_state m st u h]
    exact List.mem_cons_self u _
  · cases hb : (markVisited m st u).1
    · rw [markVisited_false_state m st u hb]
      exact hb
    · rw [markVisited_true_state m st u hb]
      unfold markVisited
      split_ifs with h1 h2
      · rfl
      · rfl
      · exact absurd (List.mem_cons_self u st.visited) h2

/-- C1 witness: in a fresh registry with limit 2, claiming a new URL
succeeds. -/
theorem markVisited_contract_witness :
    (markVisited 2 ⟨[], 0⟩ ("a")).1 = true :=
  (markVisited_contract 2 ⟨[], 0⟩ ("a")).1.mpr ⟨by decide, by decide⟩

/-- C2: a crawlURL task emits exactly one CrawlResult exactly when the
candidate passes the scope filter and its claim succeeds (whatever the
fetch outcome, including request-build and transport failures), and emits
none when it is filtered out or its claim is rejected. -/
theorem crawlURL_result_emission (c : Config) (env : String → FetchOutcome)
    (st : VisitState) (u : URL) :
    (crawlURL c env st u).2.1.length =
      if shouldCrawl c u = true ∧ (markVisited c.maxNum st u.render).1 = true
      then 1 else 0 := by
  by_cases hs : shouldCrawl c u = true
  · by_cases hm : (markVisited c.maxNum st u.render).1 = true
    · simp [crawlURL_eq, hs, hm]
    · simp only [Bool.not_eq_true] at hm
      simp [crawlURL_eq, hs, hm]
  · simp only [Bool.not_eq_true] at hs
    simp [crawlURL_eq, hs]

/-- C4: shouldCrawl accepts a candidate iff its host equals the seed host
case-insensitively and its scheme equals the seed scheme exactly; with seed
https://a.com/x, candidate http://a.com/y is rejected and https://A.COM/y
is accepted. -/
theorem shouldCrawl_scope (c : Config) (u : URL) :
    (shouldCrawl c u = true ↔
      asciiLower u.host = asciiLower c.startURL.host ∧
        u.scheme = c.startURL.scheme)
    ∧ shouldCrawl ⟨(parseURL ("https://a.com/x")).getD ⟨"", "", "", "", "", ""⟩, 0⟩
        ((parseURL ("http://a.com/y")).getD ⟨"", "", "", "", "", ""⟩) = false
    ∧ shouldCrawl ⟨(parseURL ("https://a.com/x")).getD ⟨"", "", "", "", "", ""⟩, 0⟩
        ((parseURL ("https://A.COM/y")).getD ⟨"", "", "", "", "", ""⟩) = true := by
  refine ⟨?_, by decide, by decide⟩
  unfold shouldCrawl eqFold
  split_ifs with h
  · simp only [Bool.false_eq_true, false_iff, not_and]
    simp only [Bool.or_eq_true, Bool.not_eq_true', beq_eq_false_iff_ne, ne_eq,
      bne_iff_ne] at h
    intro hh
    rcases h with h | h
    · exact absurd hh h
    · intro hsch
      exact h hsch
  · simp only [Bool.or_eq_true, Bool.not_eq_true', beq_eq_false_iff_ne, ne_eq,
      bne_iff_ne, not_or, not_not] at h
    simp only [true_iff]
    exact ⟨h.1, h.2⟩

/-- C6: the collector classifies a result as broken iff its error is present
or its status lies in [400, 600); 404 without error is broken, 200 is OK,
and a timeout with status 0 is broken. -/
theorem isBroken_classification :
    (∀ r : LinkStatus, isBroken r = true ↔
      r.err ≠ none ∨ (400 ≤ r.status ∧ r.status < 600))
    ∧ isBroken ⟨("https://a.com/p"), 404, none⟩ = true
    ∧ isBroken ⟨("https://a.com/p"), 200, none⟩ = false
    ∧ isBroken ⟨("https://a.com/p"), 0, some ("timeout")⟩ = true := by
  refine ⟨fun r => ?_, by decide, by decide, by decide⟩
  rcases r with ⟨url, status, err⟩
  cases err <;> simp [isBroken]

/-- C5: extractLinks returns, in depth-first document order, the trimmed
href of every anchor and src of every image, resolved against the base URL,
skipping values that fail to parse without affecting the rest; on the
round-trip example with base https://a.com/dir/page.html it yields
https://a.com/foo then https://a.com/dir/bar.png, and a malformed href in
the middle changes nothing. -/
theorem extractLinks_spec :
    (∀ (base : URL) (n : HtmlNode),
      extractLinks n base =
        (collectRefs n).filterMap
          (fun v => (parseURL (goTrimSpace v)).map (resolveReference base)))
    ∧ extractLinks exDoc5 exBase5 =
        [⟨"https", "", "a.com", "/foo", "", ""⟩,
          ⟨"https", "", "a.com", "/dir/bar.png", "", ""⟩]
    ∧ extractLinks exDocMal exBase5 =
        [⟨"https", "", "a.com", "/foo", "", ""⟩,
          ⟨"https", "", "a.com", "/dir/bar.png", "", ""⟩] :=
  ⟨fun base n => extractFrom_eq_spec base n, by decide, by decide⟩

/-- C3: whenever the in-scope link graph reachable during the run lives in a
finite universe of URL strings (with a uniform bound on per-page fan-out),
the run started from a seed in that universe drains its pending-task list —
the WaitGroup count — to zero within a number of steps bounded by the
universe, whether the graph is acyclic or cyclic: every task either claims
a never-before-claimed URL or returns immediately. -/
theorem crawl_terminates (c : Config) (env : String → FetchOutcome)
    (Uni : Finset String) (L : Nat)
    (hclosed : ∀ u : URL, u.render ∈ Uni → ∀ v ∈ linksOf env u, v.render ∈ Uni)
    (hbound : ∀ u : URL, (linksOf env u).length ≤ L)
    (seed : URL) (hseed : seed.render ∈ Uni)
    (n : Nat) (hn : Uni.card * (L + 1) + 1 ≤ n) :
    (runN c env n (initState seed)).pending = [] := by
  apply runN_reaches_nil c env Uni L hclosed hbound n
  · intro u hu
    simp only [initState, List.mem_singleton] at hu
    rw [hu]
    exact hseed
  · have hfil : Uni.filter (fun x => x ∉ ([] : List String)) = Uni := by
      apply Finset.filter_true_of_mem
      intro x _
      simp
    unfold measureRun unvisitedIn initState
    simp only [List.length_singleton]
    rw [hfil]
    exact hn

/-- C3 witness: a one-page universe whose fetches all fail at transport
level terminates within two steps. -/
theorem crawl_terminates_witness :
    (runN ⟨exBase10, 0⟩ exEnvDead 2 (initState exBase10)).pending = [] := by
  apply crawl_terminates ⟨exBase10, 0⟩ exEnvDead {("https://a.com/x")} 0
  · intro u _ v hv
    simp [linksOf, exEnvDead] at hv
  · intro u
    simp [linksOf, exEnvDead]
  · decide
  · decide

/-- C7: with a positive claim limit, a whole run never produces more
CrawlResults than maxNum; concretely, with maxPagesToVisit = 2 and a seed
page linking to five distinct in-scope unvisited pages, the completed run
produces exactly two CrawlResults (the seed's claim being the first). -/
theorem claim_limit (c : Config) (env : String → FetchOutcome) (seed : URL)
    (n : Nat) (hpos : 0 < c.maxNum) :
    ((runN c env n (initState seed)).results.length : Int) ≤ c.maxNum
    ∧ (runN exCfg7 exEnv7 6 (initState exSeed7)).results.length = 2
    ∧ (runN exCfg7 exEnv7 6 (initState exSeed7)).pending = [] := by
  refine ⟨?_, by decide, by decide⟩
  apply runN_results_le c env hpos n (initState seed) rfl
  simp only [initState, Nat.cast_zero]
  omega

/-- C7 witness: the bound applied to the concrete two-page-limit run. -/
theorem claim_limit_witness :
    ((runN exCfg7 exEnv7 6 (initState exSeed7)).results.length : Int) ≤
      exCfg7.maxNum :=
  (claim_limit exCfg7 exEnv7 exSeed7 6 (by decide)).1

/-- C8: for a claimed in-scope URL whose fetch succeeds, the task emits its
CrawlResult with the response status and no error, and spawns children from
link extraction exactly when the Content-Type contains text/html after
lower-casing (a case-insensitive substring match — so TEXT/HTML with a
charset parameter matches and application/json does not); any other content
type spawns no children. -/
theorem contentType_gate (c : Config) (env : String → FetchOutcome)
    (st : VisitState) (u : URL) (status : Int) (ct : String)
    (body : Option HtmlNode)
    (hs : shouldCrawl c u = true)
    (hm : (markVisited c.maxNum st u.render).1 = true)
    (he : env u.render = FetchOutcome.success status ct body) :
    (crawlURL c env st u).2.1 = [⟨u.render, status, none⟩]
    ∧ (crawlURL c env st u).2.2 =
        (if goContains (asciiLower ct) ("text/html") = true then
          (match body with
            | some doc => extractLinks doc u
            | none => [])
        else [])
    ∧ goContains (asciiLower ("TEXT/HTML; charset=UTF-8")) ("text/html") = true
    ∧ goContains (asciiLower ("application/json")) ("text/html") = false := by
  refine ⟨?_, ?_, by decide, by decide⟩
  · rw [crawlURL_eq]
    simp [hs, hm, resultOf, he]
  · rw [crawlURL_eq]
    by_cases hct : goContains (asciiLower ct) ("text/html") = true
    · cases body <;> simp [hs, hm, linksOf, he, hct]
    · simp only [Bool.not_eq_true] at hct
      cases body <;> simp [hs, hm, linksOf, he, hct]

/-- C8 witness: a JSON response is reported but spawns nothing. -/
theorem contentType_gate_witness :
    (crawlURL exCfg8 exEnv8 ⟨[], 0⟩ exSeed8).2.1 =
      [⟨("https://b.com/"), 200, none⟩]
    ∧ (crawlURL exCfg8 exEnv8 ⟨[], 0⟩ exSeed8).2.2 = [] := by
  have h := contentType_gate exCfg8 exEnv8 ⟨[], 0⟩ exSeed8 200
    ("application/json") none (by decide) (by decide) rfl
  refine ⟨?_, ?_⟩
  · rw [h.1]
    decide
  · rw [h.2.1]
    decide

/-- C9: when the fetch of a claimed URL succeeds but the HTML body fails to
parse, the task's CrawlResult is identical to the one it would emit had
parsing succeeded — same status, no error, classified purely from the HTTP
status — while link extraction is skipped entirely. -/
theorem parse_failure_skipped (c : Config) (envFail envOk : String → FetchOutcome)
    (st : VisitState) (u : URL) (status : Int) (ct : String) (doc : HtmlNode)
    (hs : shouldCrawl c u = true)
    (hm : (markVisited c.maxNum st u.render).1 = true)
    (hef : envFail u.render = FetchOutcome.success status ct none)
    (heo : envOk u.render = FetchOutcome.success status ct (some doc)) :
    (crawlURL c envFail st u).2.1 = (crawlURL c envOk st u).2.1
    ∧ (crawlURL c envFail st u).2.1 = [⟨u.render, status, none⟩]
    ∧ (crawlURL c envFail st u).2.2 = [] := by
  have h1 : (crawlURL c envFail st u).2.1 = [resultOf envFail u] := by
    rw [crawlURL_eq]
    simp [hs, hm]
  have h2 : (crawlURL c envOk st u).2.1 = [resultOf envOk u] := by
    rw [crawlURL_eq]
    simp [hs, hm]
  have h3 : resultOf envFail u = ⟨u.render, status, none⟩ := by
    simp [resultOf, hef]
  have h4 : resultOf envOk u = ⟨u.render, status, none⟩ := by
    simp [resultOf, heo]
  refine ⟨by rw [h1, h2, h3, h4], by rw [h1, h3], ?_⟩
  rw [crawlURL_eq]
  simp [hs, hm, linksOf, hef]

/-- C9 witness: a 500 HTML page whose body fails to parse is reported the
same as its parsable twin and spawns nothing. -/
theorem parse_failure_skipped_witness :
    (crawlURL exCfg8 exEnvFail9 ⟨[], 0⟩ exSeed8).2.1 =
      (crawlURL exCfg8 exEnvOk9 ⟨[], 0⟩ exSeed8).2.1
    ∧ (crawlURL exCfg8 exEnvFail9 ⟨[], 0⟩ exSeed8).2.2 = [] := by
  have h := parse_failure_skipped exCfg8 exEnvFail9 exEnvOk9 ⟨[], 0⟩ exSeed8 500
    ("text/html") exDoc9 (by decide) (by decide) rfl rfl
  exact ⟨h.1, h.2.2⟩

/-- C10: a whitespace-only (or empty) href is not skipped as malformed: it
parses to the empty URL reference, which resolves to the base URL itself
(for any base in normal form with no opaque part), so a page carrying such
an attribute yields its own URL as an extracted link. -/
theorem empty_href_resolves (base : URL) (v : String)
    (hop : base.opq = "")
    (hnorm : resolvePath base.path.data [] = base.path.data)
    (htrim : goTrimSpace v = "") :
    parseURL (goTrimSpace v) = some ⟨"", "", "", "", "", ""⟩
    ∧ resolveReference base ⟨"", "", "", "", "", ""⟩ = base
    ∧ extractLinks exDocWs exBase10 = [exBase10] := by
  refine ⟨by rw [htrim]; decide, ?_, by decide⟩
  show (if ("" : String) ≠ "" ∨ ("" : String) ≠ "" then _
    else if ("" : String) ≠ "" then _ else _) = base
  rw [if_neg (by simp), if_neg (by simp)]
  rcases base with ⟨bs, bo, bh, bp, bq, bf⟩
  simp only at hop hnorm
  simp [hop, hnorm]

/-- C10 witness: the empty reference resolves to the concrete base
https://a.com/x. -/
theorem empty_href_resolves_witness :
    resolveReference exBase10 ⟨"", "", "", "", "", ""⟩ = exBase10 :=
  (empty_href_resolves exBase10 ("   ") rfl (by decide) (by decide)).2.1
